import Mathlib

/-!
# Verification of `src/monitoring/sentry-integration.py`

A shallow embedding of the compliance-monitor sidecar script.  The script is a
polling loop over a `ComplianceMonitor` object: each cycle it

* fetches a violations list, increments a per-state gauge and emits an
  error-level Sentry message for every `STATE_RESTRICTION` entry,
* fetches the KYC queue size, sets a gauge, and emits a warning above 100,
* pushes the metric registry to a Prometheus gateway,
* fetches a financial-integrity report and, when unbalanced, emits a
  fatal-level message and triggers a PagerDuty alert.

Effects (Sentry messages and exceptions, local prints, gateway pushes,
PagerDuty posts) are recorded in an event log inside the monitor state, and
Python exceptions are modelled with an `Except` layer: `M α` is a state
transformer `MState → Except Err α × MState`.  HTTP responses and the
outcome of outbound calls are inputs to each cycle, collected in a `World`
value, so one run of the loop is a pure function of the world sequence.
-/

/-- A Python exception: a `KeyError` from a missing dictionary key, or any
failure of a network call / JSON decode, carrying its rendered message. -/
inductive Err where
  | keyError (key : String)
  | netError (msg : String)
deriving Repr, DecidableEq

/-- The text `str(e)` that `print(f"Error in compliance check: {e}")` embeds:
Python renders `KeyError("k")` as `'k'`. -/
def Err.message : Err → String
  | .keyError k => "\x27" ++ k ++ "\x27"
  | .netError m => m

/-- A Python value appearing in the `extras` dict of a Sentry message. -/
inductive PyVal where
  | s (v : String)
  | i (v : Int)
  | strs (v : List String)
deriving Repr, DecidableEq

/-- One observable outbound effect of the monitor. -/
inductive Event where
  | captureMessage (message : String) (level : String)
      (extras : List (String × PyVal))
  | captureException (e : Err)
  | printLocal (line : String)
  | pushGateway (gateway : String) (job : String)
      (stateViolations : List (String × Nat)) (kycQueueSize : Int)
  | pagerdutyPost (routingKey : String) (summary : String) (source : String)
      (severity : String) (message : String)
deriving Repr, DecidableEq

/-- The mutable state of a `ComplianceMonitor`: the two metric families the
flow touches (the labelled `state_violations` gauge as an association list
with default 0, and the `kyc_queue_size` gauge, initially 0 as in
prometheus_client) together with the log of emitted events. -/
structure MState where
  state_violations : List (String × Nat)
  kyc_queue_size : Int
  events : List Event
deriving Repr, DecidableEq

/-- The monitor computation monad: state passing plus Python exceptions. -/
def M (α : Type) : Type := MState → Except Err α × MState

def M.pure {α : Type} (a : α) : M α := fun s => (.ok a, s)

def M.bind {α β : Type} (x : M α) (f : α → M β) : M β := fun s =>
  match x s with
  | (.ok a, s1) => f a s1
  | (.error e, s1) => (.error e, s1)

instance : Monad M where
  pure := M.pure
  bind := M.bind

/-- A Python `try: x except Exception as e: h e`. -/
def M.tryCatch {α : Type} (x : M α) (h : Err → M α) : M α := fun s =>
  match x s with
  | (.ok a, s1) => (.ok a, s1)
  | (.error e, s1) => h e s1

def M.throw {α : Type} (e : Err) : M α := fun s => (.error e, s)

/-- Evaluate a fallible value (an HTTP fetch, a decode, a key lookup) in `M`. -/
def liftE {α : Type} : Except Err α → M α
  | .ok a => M.pure a
  | .error e => M.throw e

/-- Append one event to the log. -/
def emit (e : Event) : M Unit := fun s =>
  (.ok (), { s with events := s.events ++ [e] })

/-- Association-list read with the prometheus default 0 for a fresh label. -/
def getLabel (l : List (String × Nat)) (k : String) : Nat :=
  match l with
  | [] => 0
  | (k1, v) :: rest => if k1 = k then v else getLabel rest k

/-- `self.state_violations.labels(state=k).inc()` on the underlying child
map: a fresh label starts at 0 and is bumped to 1. -/
def incLabel (l : List (String × Nat)) (k : String) : List (String × Nat) :=
  match l with
  | [] => [(k, 1)]
  | (k1, v) :: rest =>
      if k1 = k then (k1, v + 1) :: rest else (k1, v) :: incLabel rest k

def incStateViolation (k : String) : M Unit := fun s =>
  (.ok (), { s with state_violations := incLabel s.state_violations k })

/-- `self.kyc_queue_size.set(n)`. -/
def setKycGauge (n : Int) : M Unit := fun s =>
  (.ok (), { s with kyc_queue_size := n })

/-- A decoded violations-list entry: a JSON object of string fields,
as an association list.  `lookupKey` is dictionary lookup. -/
def lookupKey (v : List (String × String)) (k : String) : Option String :=
  match v with
  | [] => none
  | (k1, x) :: rest => if k1 = k then some x else lookupKey rest k

/-- Python `violation[k]`: raises `KeyError(k)` when the key is absent. -/
def getItem (v : List (String × String)) (k : String) : Except Err String :=
  match lookupKey v k with
  | some x => .ok x
  | none => .error (.keyError k)

def lookupIntKey (v : List (String × Int)) (k : String) : Option Int :=
  match v with
  | [] => none
  | (k1, x) :: rest => if k1 = k then some x else lookupIntKey rest k

/-- Python `obj[k]` on an integer-valued JSON object. -/
def getIntItem (v : List (String × Int)) (k : String) : Except Err Int :=
  match lookupIntKey v k with
  | some x => .ok x
  | none => .error (.keyError k)

/-- The decoded `/api/v1/admin/financial/integrity` response: a JSON object
whose three keys may each be absent (absence raises `KeyError` on access). -/
structure IntegrityResp where
  balanced : Option Bool
  imbalance : Option Int
  affected_users : Option (List String)
deriving Repr, DecidableEq

def IntegrityResp.getBalanced (ig : IntegrityResp) : Except Err Bool :=
  match ig.balanced with
  | some b => .ok b
  | none => .error (.keyError "balanced")

def IntegrityResp.getImbalance (ig : IntegrityResp) : Except Err Int :=
  match ig.imbalance with
  | some x => .ok x
  | none => .error (.keyError "imbalance")

def IntegrityResp.getAffectedUsers (ig : IntegrityResp) :
    Except Err (List String) :=
  match ig.affected_users with
  | some x => .ok x
  | none => .error (.keyError "affected_users")

/-- The external world of one cycle: the outcome of each HTTP interaction
(`.error` covers a network failure or a malformed/undecodable body) and the
environment configuration read by the script. -/
structure World where
  violationsResp : Except Err (List (List (String × String)))
  kycResp : Except Err (List (String × Int))
  pushResult : Except Err Unit
  integrityResp : Except Err IntegrityResp
  pagerdutyResult : Except Err Unit
  pagerduty_key : Option String
  prometheus_gateway : String

/-- The body of the `for violation in violations:` loop (source lines 56-69):
filter on `violation['type']`, increment the per-state gauge, then
`capture_message(..., level="error", extras={user_id, state, timestamp})`.
Key lookups happen in the source's evaluation order: `type`, `state` (for the
`.labels(...).inc()` call), then `user_id`, `state`, `timestamp` for the
message and extras. -/
def processViolation (v : List (String × String)) : M Unit := do
  let t ← liftE (getItem v "type")
  if t = "STATE_RESTRICTION" then
    let st ← liftE (getItem v "state")
    incStateViolation st
    let uid ← liftE (getItem v "user_id")
    let ts ← liftE (getItem v "timestamp")
    emit (.captureMessage ("State restriction violation: " ++ st) "error"
      [("user_id", .s uid), ("state", .s st), ("timestamp", .s ts)])
  else
    M.pure ()

def processViolations : List (List (String × String)) → M Unit
  | [] => M.pure ()
  | v :: rest => do
      processViolation v
      processViolations rest

/-- `push_to_gateway(self.prometheus_gateway, job='compliance_monitor',
registry=self.registry)`: on success the current registry contents are
recorded at the gateway; on failure the exception propagates. -/
def push_to_gateway (w : World) : M Unit := fun s =>
  match w.pushResult with
  | .ok _ => (.ok (), { s with events := s.events ++
      [.pushGateway w.prometheus_gateway "compliance_monitor"
        s.state_violations s.kyc_queue_size] })
  | .error e => (.error e, s)

/-- The KYC-queue check and the metrics push (lines 72-87): read the size,
set the gauge, warn above the threshold, push the registry. -/
def processKycAndPush (w : World) : M Unit := do
  let kycObj ← liftE w.kycResp
  let queue_size ← liftE (getIntItem kycObj "size")
  setKycGauge queue_size
  if queue_size > 100 then
    emit (.captureMessage
      ("KYC queue backlog: " ++ toString queue_size ++ " cases pending")
      "warning" [])
  else
    M.pure ()
  push_to_gateway w

/-- The protected body of `check_compliance_violations` (lines 51-87). -/
def check_compliance_violations_body (w : World) : M Unit := do
  let violations ← liftE w.violationsResp
  processViolations violations
  processKycAndPush w

/-- `check_compliance_violations` (lines 49-91): the body under one
`try/except` that reports the exception to Sentry and prints it locally. -/
def check_compliance_violations (w : World) : M Unit :=
  M.tryCatch (check_compliance_violations_body w)
    (fun e => do
      emit (.captureException e)
      emit (.printLocal ("Error in compliance check: " ++ e.message)))

/-- `trigger_pagerduty_alert` (lines 119-138): skipped entirely when no
`PAGERDUTY_KEY` is configured; otherwise a POST of the fixed-shape payload,
whose failure propagates (the function itself has no handler). -/
def trigger_pagerduty_alert (w : World) (title message : String) : M Unit :=
  match w.pagerduty_key with
  | none => M.pure ()
  | some key => fun s =>
      match w.pagerdutyResult with
      | .ok _ => (.ok (), { s with events := s.events ++
          [.pagerdutyPost key title "luckxpress-monitor" "critical" message] })
      | .error e => (.error e, s)

/-- The protected body of `check_financial_integrity` (lines 96-114). -/
def check_financial_integrity_body (w : World) : M Unit := do
  let integrity ← liftE w.integrityResp
  let b ← liftE integrity.getBalanced
  if b then
    M.pure ()
  else do
    let imb ← liftE integrity.getImbalance
    let aff ← liftE integrity.getAffectedUsers
    emit (.captureMessage "CRITICAL: Ledger imbalance detected" "fatal"
      [("imbalance_amount", .i imb), ("affected_users", .strs aff)])
    trigger_pagerduty_alert w "Ledger Imbalance"
      ("Imbalance of " ++ toString imb ++ " detected")

/-- `check_financial_integrity` (lines 93-117): the body under one
`try/except` that only reports the exception to Sentry. -/
def check_financial_integrity (w : World) : M Unit :=
  M.tryCatch (check_financial_integrity_body w)
    (fun e => emit (.captureException e))

/-- One iteration of the `while True:` loop (lines 145-148), the sleep
dropped: both checks in order. -/
def run_cycle (w : World) : M Unit := do
  check_compliance_violations w
  check_financial_integrity w

/-- A finite number of loop iterations, each against its own world. -/
def runCycles : List World → M Unit
  | [] => M.pure ()
  | w :: ws => do
      run_cycle w
      runCycles ws

/-- The state of a freshly constructed `ComplianceMonitor`: empty registry
children, gauges at 0, nothing emitted. -/
def initState : MState :=
  { state_violations := [], kyc_queue_size := 0, events := [] }

/-- The end-to-end fixture: one TX state-restriction violation, queue size
50, balanced ledger, no paging key, default gateway. -/
def endToEndWorld : World :=
  ⟨.ok [[("type", "STATE_RESTRICTION"), ("state", "TX"), ("user_id", "u1"),
      ("timestamp", "T")]],
   .ok [("size", 50)], .ok (), .ok ⟨some true, none, none⟩, .ok (), none,
   "localhost:9091"⟩

/-- The full event log one cycle produces on `endToEndWorld`. -/
def endToEndEvents : List Event :=
  [.captureMessage "State restriction violation: TX" "error"
      [("user_id", .s "u1"), ("state", .s "TX"), ("timestamp", .s "T")],
   .pushGateway "localhost:9091" "compliance_monitor" [("TX", 1)] 50]

/-! ## Observations on the event log -/

def Event.isMessageLevel (lvl : String) : Event → Bool
  | .captureMessage _ l _ => l = lvl
  | _ => false

def Event.isException : Event → Bool
  | .captureException _ => true
  | _ => false

def Event.isPush : Event → Bool
  | .pushGateway _ _ _ _ => true
  | _ => false

def Event.isPagerPost : Event → Bool
  | .pagerdutyPost _ _ _ _ _ => true
  | _ => false

def countLevel (evs : List Event) (lvl : String) : Nat :=
  (evs.filter (Event.isMessageLevel lvl)).length

def countExceptions (evs : List Event) : Nat :=
  (evs.filter Event.isException).length

def countPush (evs : List Event) : Nat :=
  (evs.filter Event.isPush).length

def countPagerPost (evs : List Event) : Nat :=
  (evs.filter Event.isPagerPost).length

/-- An entry passes the `violation['type'] == 'STATE_RESTRICTION'` filter. -/
def entryMatches (v : List (String × String)) : Bool :=
  lookupKey v "type" = some "STATE_RESTRICTION"

/-- A well-formed entry: it has a `type` key and, when it passes the filter,
also the three keys the handler reads. -/
def wfEntry (v : List (String × String)) : Prop :=
  (lookupKey v "type").isSome ∧
    (lookupKey v "type" = some "STATE_RESTRICTION" →
      (lookupKey v "state").isSome ∧ (lookupKey v "user_id").isSome ∧
        (lookupKey v "timestamp").isSome)

instance (v : List (String × String)) : Decidable (wfEntry v) := by
  unfold wfEntry; infer_instance

/-- The number of entries that pass the type filter. -/
def countMatching (vs : List (List (String × String))) : Nat :=
  (vs.filter entryMatches).length

/-- The number of filter-passing entries carrying state `r`. -/
def countMatchingState (vs : List (List (String × String))) (r : String) :
    Nat :=
  (vs.filter (fun v => entryMatches v && lookupKey v "state" = some r)).length

/-- The Sentry message a well-formed matching entry produces. -/
def expectedViolationEvent (v : List (String × String)) : Event :=
  .captureMessage
    ("State restriction violation: " ++ ((lookupKey v "state").getD ""))
    "error"
    [("user_id", .s ((lookupKey v "user_id").getD "")),
     ("state", .s ((lookupKey v "state").getD "")),
     ("timestamp", .s ((lookupKey v "timestamp").getD ""))]

def expectedViolationEvents (vs : List (List (String × String))) :
    List Event :=
  (vs.filter entryMatches).map expectedViolationEvent

/-- The warning emitted for a KYC backlog of `n`. -/
def kycWarnEvent (n : Int) : Event :=
  .captureMessage ("KYC queue backlog: " ++ toString n ++ " cases pending")
    "warning" []

/-- The fatal message emitted for an unbalanced ledger. -/
def fatalImbalanceEvent (imb : Int) (aff : List String) : Event :=
  .captureMessage "CRITICAL: Ledger imbalance detected" "fatal"
    [("imbalance_amount", .i imb), ("affected_users", .strs aff)]

/-- The PagerDuty event posted for an imbalance of `imb` under `key`. -/
def pagerdutyImbalanceEvent (key : String) (imb : Int) : Event :=
  .pagerdutyPost key "Ledger Imbalance" "luckxpress-monitor" "critical"
    ("Imbalance of " ++ toString imb ++ " detected")

/-- The counter updates a violations list performs, folded left to right. -/
def applyIncs (l : List (String × Nat)) :
    List (List (String × String)) → List (String × Nat)
  | [] => l
  | v :: rest =>
      applyIncs
        (if entryMatches v then incLabel l ((lookupKey v "state").getD "")
         else l) rest

/-! ## Unfolding lemmas for the monad -/

theorem bind_eq {α β : Type} (x : M α) (f : α → M β) :
    (x >>= f) = M.bind x f := rfl

theorem pure_eq {α : Type} (a : α) : (Pure.pure a : M α) = M.pure a := rfl

theorem M.pure_apply {α : Type} (a : α) (s : MState) :
    M.pure a s = (.ok a, s) := rfl

theorem M.throw_apply {α : Type} (e : Err) (s : MState) :
    (M.throw e : M α) s = (.error e, s) := rfl

theorem M.bind_apply {α β : Type} (x : M α) (f : α → M β) (s : MState) :
    M.bind x f s =
      match x s with
      | (.ok a, s1) => f a s1
      | (.error e, s1) => (.error e, s1) := rfl

theorem M.tryCatch_apply {α : Type} (x : M α) (h : Err → M α) (s : MState) :
    M.tryCatch x h s =
      match x s with
      | (.ok a, s1) => (.ok a, s1)
      | (.error e, s1) => h e s1 := rfl

theorem liftE_ok {α : Type} (a : α) : liftE (.ok a) = M.pure a := rfl

theorem liftE_error {α : Type} (e : Err) :
    (liftE (.error e) : M α) = M.throw e := rfl

theorem emit_apply (e : Event) (s : MState) :
    emit e s = (.ok (), { s with events := s.events ++ [e] }) := rfl

theorem incStateViolation_apply (k : String) (s : MState) :
    incStateViolation k s =
      (.ok (), { s with state_violations := incLabel s.state_violations k }) :=
  rfl

theorem setKycGauge_apply (n : Int) (s : MState) :
    setKycGauge n s = (.ok (), { s with kyc_queue_size := n }) := rfl

/-! ## Association-list lemmas -/

theorem getLabel_incLabel (l : List (String × Nat)) (k r : String) :
    getLabel (incLabel l k) r = getLabel l r + (if k = r then 1 else 0) := by
  induction l with
  | nil =>
      by_cases h : k = r <;> simp [incLabel, getLabel, h]
  | cons hd tl ih =>
      obtain ⟨k1, v⟩ := hd
      by_cases h1 : k1 = k
      · subst h1
        by_cases h2 : k1 = r <;> simp [incLabel, getLabel, h2]
      · by_cases h2 : k1 = r
        · subst h2
          have hkr : ¬ k = k1 := fun hh => h1 hh.symm
          simp [incLabel, getLabel, h1, hkr]
        · simp [incLabel, getLabel, h1, h2, ih]

theorem getLabel_le_incLabel (l : List (String × Nat)) (k r : String) :
    getLabel l r ≤ getLabel (incLabel l k) r := by
  rw [getLabel_incLabel]; omega

/-! ## The violations loop -/

theorem countMatchingState_cons (v : List (String × String))
    (rest : List (List (String × String))) (r : String) :
    countMatchingState (v :: rest) r =
      (if entryMatches v ∧ lookupKey v "state" = some r then 1 else 0) +
        countMatchingState rest r := by
  by_cases h1 : entryMatches v
  · by_cases h2 : lookupKey v "state" = some r
    · simp [countMatchingState, List.filter, h1, h2]
      omega
    · simp [countMatchingState, List.filter, h1, h2]
  · simp [countMatchingState, List.filter, h1]

theorem countMatching_cons (v : List (String × String))
    (rest : List (List (String × String))) :
    countMatching (v :: rest) =
      (if entryMatches v then 1 else 0) + countMatching rest := by
  by_cases h : entryMatches v
  · simp [countMatching, List.filter, h]
    omega
  · simp [countMatching, List.filter, h]

theorem expectedViolationEvents_cons (v : List (String × String))
    (rest : List (List (String × String))) :
    expectedViolationEvents (v :: rest) =
      (if entryMatches v then [expectedViolationEvent v] else []) ++
        expectedViolationEvents rest := by
  by_cases h : entryMatches v <;>
    simp [expectedViolationEvents, List.filter, h]

theorem getLabel_applyIncs (vs : List (List (String × String)))
    (h : ∀ v ∈ vs, wfEntry v) (l : List (String × Nat)) (r : String) :
    getLabel (applyIncs l vs) r = getLabel l r + countMatchingState vs r := by
  induction vs generalizing l with
  | nil => simp [applyIncs, countMatchingState]
  | cons v rest ih =>
      have hv : wfEntry v := h v (List.mem_cons_self v rest)
      have hrest : ∀ x ∈ rest, wfEntry x :=
        fun x hx => h x (List.mem_cons_of_mem v hx)
      rw [countMatchingState_cons]
      simp only [applyIncs]
      rw [ih hrest]
      by_cases hm : entryMatches v
      · obtain ⟨st, hst⟩ : ∃ st, lookupKey v "state" = some st := by
          have h1 : (lookupKey v "state").isSome :=
            (hv.2 (by simpa [entryMatches] using hm)).1
          exact Option.isSome_iff_exists.mp h1
        rw [if_pos hm, hst]
        simp only [Option.getD_some]
        rw [getLabel_incLabel]
        by_cases hr : st = r
        · subst hr
          simp [hm, hst]
          omega
        · simp [hm, hst, hr]
      · rw [if_neg hm]
        simp [hm]

theorem processViolation_run (v : List (String × String)) (hv : wfEntry v)
    (s : MState) :
    processViolation v s =
      (.ok (),
        if entryMatches v then
          { s with
            state_violations :=
              incLabel s.state_violations ((lookupKey v "state").getD ""),
            events := s.events ++ [expectedViolationEvent v] }
        else s) := by
  obtain ⟨ht0, hrest⟩ := hv
  obtain ⟨t, ht⟩ := Option.isSome_iff_exists.mp ht0
  by_cases hm : t = "STATE_RESTRICTION"
  · subst hm
    obtain ⟨hs0, hu0, hts0⟩ := hrest ht
    obtain ⟨st, hst⟩ := Option.isSome_iff_exists.mp hs0
    obtain ⟨uid, huid⟩ := Option.isSome_iff_exists.mp hu0
    obtain ⟨ts, hts⟩ := Option.isSome_iff_exists.mp hts0
    have hme : entryMatches v = true := by simp [entryMatches, ht]
    simp [processViolation, getItem, ht, hst, huid, hts, bind_eq, liftE_ok,
      M.bind_apply, M.pure_apply, incStateViolation_apply, emit_apply, hme,
      expectedViolationEvent]
  · have hme : entryMatches v = false := by
      simp [entryMatches, ht, hm]
    simp [processViolation, getItem, ht, bind_eq, liftE_ok, M.bind_apply,
      M.pure_apply, hm, hme]

theorem processViolations_run (vs : List (List (String × String)))
    (h : ∀ v ∈ vs, wfEntry v) (s : MState) :
    processViolations vs s =
      (.ok (), { s with
        state_violations := applyIncs s.state_violations vs,
        events := s.events ++ expectedViolationEvents vs }) := by
  induction vs generalizing s with
  | nil =>
      simp [processViolations, M.pure_apply, applyIncs,
        expectedViolationEvents]
  | cons v rest ih =>
      have hv : wfEntry v := h v (List.mem_cons_self v rest)
      have hrest : ∀ x ∈ rest, wfEntry x :=
        fun x hx => h x (List.mem_cons_of_mem v hx)
      have hpv := processViolation_run v hv s
      by_cases hm : entryMatches v
      · rw [if_pos hm] at hpv
        simp only [processViolations, bind_eq, M.bind_apply, hpv]
        rw [ih hrest]
        simp [applyIncs, hm, expectedViolationEvents_cons]
      · rw [if_neg hm] at hpv
        simp only [processViolations, bind_eq, M.bind_apply, hpv]
        rw [ih hrest]
        simp [applyIncs, hm, expectedViolationEvents_cons]

/-! ## Shape of the violation events -/

theorem mem_expectedViolationEvents {ev : Event}
    {vs : List (List (String × String))} (h : ev ∈ expectedViolationEvents vs) :
    ∃ v, ev = expectedViolationEvent v := by
  simp only [expectedViolationEvents, List.mem_map] at h
  obtain ⟨v, _, rfl⟩ := h
  exact ⟨v, rfl⟩

theorem filter_error_expected (vs : List (List (String × String))) :
    (expectedViolationEvents vs).filter (Event.isMessageLevel "error")
      = expectedViolationEvents vs := by
  rw [List.filter_eq_self]
  intro a ha
  obtain ⟨v, rfl⟩ := mem_expectedViolationEvents ha
  rfl

theorem filter_warning_expected (vs : List (List (String × String))) :
    (expectedViolationEvents vs).filter (Event.isMessageLevel "warning")
      = [] := by
  rw [List.filter_eq_nil_iff]
  intro a ha
  obtain ⟨v, rfl⟩ := mem_expectedViolationEvents ha
  simp [expectedViolationEvent, Event.isMessageLevel]

theorem filter_fatal_expected (vs : List (List (String × String))) :
    (expectedViolationEvents vs).filter (Event.isMessageLevel "fatal")
      = [] := by
  rw [List.filter_eq_nil_iff]
  intro a ha
  obtain ⟨v, rfl⟩ := mem_expectedViolationEvents ha
  simp [expectedViolationEvent, Event.isMessageLevel]

theorem filter_exception_expected (vs : List (List (String × String))) :
    (expectedViolationEvents vs).filter Event.isException = [] := by
  rw [List.filter_eq_nil_iff]
  intro a ha
  obtain ⟨v, rfl⟩ := mem_expectedViolationEvents ha
  simp [expectedViolationEvent, Event.isException]

theorem filter_push_expected (vs : List (List (String × String))) :
    (expectedViolationEvents vs).filter Event.isPush = [] := by
  rw [List.filter_eq_nil_iff]
  intro a ha
  obtain ⟨v, rfl⟩ := mem_expectedViolationEvents ha
  simp [expectedViolationEvent, Event.isPush]

theorem filter_pager_expected (vs : List (List (String × String))) :
    (expectedViolationEvents vs).filter Event.isPagerPost = [] := by
  rw [List.filter_eq_nil_iff]
  intro a ha
  obtain ⟨v, rfl⟩ := mem_expectedViolationEvents ha
  simp [expectedViolationEvent, Event.isPagerPost]

theorem length_expectedViolationEvents (vs : List (List (String × String))) :
    (expectedViolationEvents vs).length = countMatching vs := by
  simp [expectedViolationEvents, countMatching]

/-! ## The KYC and push stage -/

theorem processKycAndPush_fetch_error (w : World) (s : MState) (e : Err)
    (hk : w.kycResp = .error e) :
    processKycAndPush w s = (.error e, s) := by
  simp [processKycAndPush, bind_eq, M.bind_apply, hk, liftE_error,
    M.throw_apply]

theorem processKycAndPush_size_missing (w : World) (s : MState)
    (obj : List (String × Int)) (hk : w.kycResp = .ok obj)
    (hsz : lookupIntKey obj "size" = none) :
    processKycAndPush w s = (.error (.keyError "size"), s) := by
  simp [processKycAndPush, bind_eq, M.bind_apply, hk, liftE_ok, liftE_error,
    M.pure_apply, M.throw_apply, getIntItem, hsz]

theorem processKycAndPush_push_error (w : World) (s : MState)
    (obj : List (String × Int)) (n : Int) (e : Err)
    (hk : w.kycResp = .ok obj) (hsz : lookupIntKey obj "size" = some n)
    (hp : w.pushResult = .error e) :
    processKycAndPush w s =
      (.error e, { s with
        kyc_queue_size := n,
        events := s.events ++ (if n > 100 then [kycWarnEvent n] else []) }) := by
  by_cases hq : n > 100 <;>
    simp [processKycAndPush, bind_eq, M.bind_apply, hk, liftE_ok,
      M.pure_apply, getIntItem, hsz, setKycGauge_apply, emit_apply,
      push_to_gateway, hp, hq, kycWarnEvent]

theorem processKycAndPush_ok (w : World) (s : MState)
    (obj : List (String × Int)) (n : Int)
    (hk : w.kycResp = .ok obj) (hsz : lookupIntKey obj "size" = some n)
    (hp : w.pushResult = .ok ()) :
    processKycAndPush w s =
      (.ok (), { s with
        kyc_queue_size := n,
        events := s.events ++ (if n > 100 then [kycWarnEvent n] else []) ++
          [.pushGateway w.prometheus_gateway "compliance_monitor"
            s.state_violations n] }) := by
  by_cases hq : n > 100 <;>
    simp [processKycAndPush, bind_eq, M.bind_apply, hk, liftE_ok,
      M.pure_apply, getIntItem, hsz, setKycGauge_apply, emit_apply,
      push_to_gateway, hp, hq, kycWarnEvent]

/-! ## The two error boundaries -/

theorem cc_body_run (w : World) (s : MState)
    (vs : List (List (String × String))) (hv : w.violationsResp = .ok vs)
    (hwf : ∀ v ∈ vs, wfEntry v) :
    check_compliance_violations_body w s =
      processKycAndPush w { s with
        state_violations := applyIncs s.state_violations vs,
        events := s.events ++ expectedViolationEvents vs } := by
  simp [check_compliance_violations_body, bind_eq, M.bind_apply, hv,
    liftE_ok, M.pure_apply, processViolations_run vs hwf]

theorem cc_tryCatch_ok (w : World) (s : MState)
    (h : (check_compliance_violations_body w s).1 = .ok ()) :
    check_compliance_violations w s = check_compliance_violations_body w s := by
  simp only [check_compliance_violations, M.tryCatch_apply]
  rcases hb : check_compliance_violations_body w s with ⟨res, s1⟩
  rw [hb] at h
  cases res with
  | ok a => rfl
  | error e => simp at h

theorem cc_tryCatch_error (w : World) (s : MState) (e : Err)
    (h : (check_compliance_violations_body w s).1 = .error e) :
    check_compliance_violations w s =
      (.ok (), { (check_compliance_violations_body w s).2 with
        events := (check_compliance_violations_body w s).2.events ++
          [.captureException e,
           .printLocal ("Error in compliance check: " ++ e.message)] }) := by
  simp only [check_compliance_violations, M.tryCatch_apply]
  rcases hb : check_compliance_violations_body w s with ⟨res, s1⟩
  rw [hb] at h
  cases res with
  | ok a => simp at h
  | error e1 =>
      cases h
      simp [bind_eq, M.bind_apply, emit_apply]

theorem cc_result_ok (w : World) (s : MState) :
    (check_compliance_violations w s).1 = .ok () := by
  simp only [check_compliance_violations, M.tryCatch_apply]
  rcases hb : check_compliance_violations_body w s with ⟨res, s1⟩
  cases res with
  | ok a => rfl
  | error e => simp [bind_eq, M.bind_apply, emit_apply]

theorem cfi_tryCatch_ok (w : World) (s : MState)
    (h : (check_financial_integrity_body w s).1 = .ok ()) :
    check_financial_integrity w s = check_financial_integrity_body w s := by
  simp only [check_financial_integrity, M.tryCatch_apply]
  rcases hb : check_financial_integrity_body w s with ⟨res, s1⟩
  rw [hb] at h
  cases res with
  | ok a => rfl
  | error e => simp at h

theorem cfi_tryCatch_error (w : World) (s : MState) (e : Err)
    (h : (check_financial_integrity_body w s).1 = .error e) :
    check_financial_integrity w s =
      (.ok (), { (check_financial_integrity_body w s).2 with
        events := (check_financial_integrity_body w s).2.events ++
          [.captureException e] }) := by
  simp only [check_financial_integrity, M.tryCatch_apply]
  rcases hb : check_financial_integrity_body w s with ⟨res, s1⟩
  rw [hb] at h
  cases res with
  | ok a => simp at h
  | error e1 =>
      cases h
      simp [emit_apply]

theorem cfi_result_ok (w : World) (s : MState) :
    (check_financial_integrity w s).1 = .ok () := by
  simp only [check_financial_integrity, M.tryCatch_apply]
  rcases hb : check_financial_integrity_body w s with ⟨res, s1⟩
  cases res with
  | ok a => rfl
  | error e => simp [emit_apply]

theorem run_cycle_eq (w : World) (s : MState) :
    run_cycle w s =
      check_financial_integrity w ((check_compliance_violations w s).2) := by
  simp only [run_cycle, bind_eq, M.bind_apply]
  have h := cc_result_ok w s
  rcases hb : check_compliance_violations w s with ⟨res, s1⟩
  rw [hb] at h
  cases res with
  | ok a => rfl
  | error e => simp at h

theorem run_cycle_result_ok (w : World) (s : MState) :
    (run_cycle w s).1 = .ok () := by
  rw [run_cycle_eq]
  exact cfi_result_ok w _

theorem runCycles_cons (w : World) (ws : List World) (s : MState) :
    runCycles (w :: ws) s = runCycles ws ((run_cycle w s).2) := by
  simp only [runCycles, bind_eq, M.bind_apply]
  have h := run_cycle_result_ok w s
  rcases hb : run_cycle w s with ⟨res, s1⟩
  rw [hb] at h
  cases res with
  | ok a => rfl
  | error e => simp at h

/-! ## The financial-integrity flow -/

theorem trigger_no_key (w : World) (t m : String) (s : MState)
    (h : w.pagerduty_key = none) :
    trigger_pagerduty_alert w t m s = (.ok (), s) := by
  simp [trigger_pagerduty_alert, h, M.pure_apply]

theorem trigger_post_ok (w : World) (t m : String) (s : MState) (key : String)
    (h : w.pagerduty_key = some key) (hp : w.pagerdutyResult = .ok ()) :
    trigger_pagerduty_alert w t m s =
      (.ok (), { s with events := s.events ++
        [.pagerdutyPost key t "luckxpress-monitor" "critical" m] }) := by
  simp [trigger_pagerduty_alert, h, hp]

theorem trigger_post_error (w : World) (t m : String) (s : MState)
    (key : String) (e : Err) (h : w.pagerduty_key = some key)
    (hp : w.pagerdutyResult = .error e) :
    trigger_pagerduty_alert w t m s = (.error e, s) := by
  simp [trigger_pagerduty_alert, h, hp]

theorem cfi_body_balanced (w : World) (s : MState) (ig : IntegrityResp)
    (hi : w.integrityResp = .ok ig) (hb : ig.balanced = some true) :
    check_financial_integrity_body w s = (.ok (), s) := by
  simp [check_financial_integrity_body, bind_eq, M.bind_apply, hi, liftE_ok,
    M.pure_apply, IntegrityResp.getBalanced, hb]

theorem cfi_body_unbalanced (w : World) (s : MState) (ig : IntegrityResp)
    (imb : Int) (aff : List String) (hi : w.integrityResp = .ok ig)
    (hb : ig.balanced = some false) (him : ig.imbalance = some imb)
    (ha : ig.affected_users = some aff) :
    check_financial_integrity_body w s =
      trigger_pagerduty_alert w "Ledger Imbalance"
        ("Imbalance of " ++ toString imb ++ " detected")
        { s with events := s.events ++ [fatalImbalanceEvent imb aff] } := by
  simp [check_financial_integrity_body, bind_eq, M.bind_apply, hi, liftE_ok,
    M.pure_apply, IntegrityResp.getBalanced, hb, IntegrityResp.getImbalance,
    him, IntegrityResp.getAffectedUsers, ha, emit_apply, fatalImbalanceEvent]

/-! ## Frame lemmas over arbitrary (possibly malformed) inputs -/

theorem processViolation_frame (v : List (String × String)) (s : MState) :
    ∃ evs : List Event,
      (processViolation v s).2.events = s.events ++ evs ∧
      evs.filter Event.isException = [] ∧
      evs.filter Event.isPush = [] ∧
      (processViolation v s).2.kyc_queue_size = s.kyc_queue_size ∧
      ((processViolation v s).2.state_violations = s.state_violations ∨
        ∃ k, (processViolation v s).2.state_violations
          = incLabel s.state_violations k) := by
  cases ht : lookupKey v "type" with
  | none =>
      have hrun : processViolation v s = (.error (.keyError "type"), s) := by
        simp [processViolation, getItem, ht, bind_eq, M.bind_apply,
          liftE_error, M.throw_apply]
      exact ⟨[], by simp [hrun], rfl, rfl, by simp [hrun], Or.inl (by simp [hrun])⟩
  | some t =>
      by_cases hm : t = "STATE_RESTRICTION"
      · subst hm
        cases hst : lookupKey v "state" with
        | none =>
            have hrun : processViolation v s =
                (.error (.keyError "state"), s) := by
              simp [processViolation, getItem, ht, hst, bind_eq, M.bind_apply,
                liftE_ok, liftE_error, M.pure_apply, M.throw_apply]
            exact ⟨[], by simp [hrun], rfl, rfl, by simp [hrun],
              Or.inl (by simp [hrun])⟩
        | some st =>
            cases huid : lookupKey v "user_id" with
            | none =>
                have hrun : processViolation v s =
                    (.error (.keyError "user_id"),
                     { s with state_violations :=
                        incLabel s.state_violations st }) := by
                  simp [processViolation, getItem, ht, hst, huid, bind_eq,
                    M.bind_apply, liftE_ok, liftE_error, M.pure_apply,
                    M.throw_apply, incStateViolation_apply]
                exact ⟨[], by simp [hrun], rfl, rfl, by simp [hrun],
                  Or.inr ⟨st, by simp [hrun]⟩⟩
            | some uid =>
                cases hts : lookupKey v "timestamp" with
                | none =>
                    have hrun : processViolation v s =
                        (.error (.keyError "timestamp"),
                         { s with state_violations :=
                            incLabel s.state_violations st }) := by
                      simp [processViolation, getItem, ht, hst, huid, hts,
                        bind_eq, M.bind_apply, liftE_ok, liftE_error,
                        M.pure_apply, M.throw_apply, incStateViolation_apply]
                    exact ⟨[], by simp [hrun], rfl, rfl, by simp [hrun],
                      Or.inr ⟨st, by simp [hrun]⟩⟩
                | some ts =>
                    have hrun : processViolation v s =
                        (.ok (),
                         { s with
                            state_violations := incLabel s.state_violations st,
                            events := s.events ++
                              [.captureMessage
                                ("State restriction violation: " ++ st)
                                "error"
                                [("user_id", .s uid), ("state", .s st),
                                 ("timestamp", .s ts)]] }) := by
                      simp [processViolation, getItem, ht, hst, huid, hts,
                        bind_eq, M.bind_apply, liftE_ok, M.pure_apply,
                        incStateViolation_apply, emit_apply]
                    refine ⟨[.captureMessage
                        ("State restriction violation: " ++ st) "error"
                        [("user_id", .s uid), ("state", .s st),
                         ("timestamp", .s ts)]],
                      by simp [hrun], rfl, rfl, by simp [hrun],
                      Or.inr ⟨st, by simp [hrun]⟩⟩
      · have hrun : processViolation v s = (.ok (), s) := by
          simp [processViolation, getItem, ht, bind_eq, M.bind_apply,
            liftE_ok, M.pure_apply, hm]
        exact ⟨[], by simp [hrun], rfl, rfl, by simp [hrun],
          Or.inl (by simp [hrun])⟩

theorem processViolations_frame (vs : List (List (String × String)))
    (s : MState) :
    ∃ evs : List Event,
      (processViolations vs s).2.events = s.events ++ evs ∧
      evs.filter Event.isException = [] ∧
      evs.filter Event.isPush = [] ∧
      (processViolations vs s).2.kyc_queue_size = s.kyc_queue_size ∧
      (∀ r, getLabel s.state_violations r ≤
        getLabel (processViolations vs s).2.state_violations r) := by
  induction vs generalizing s with
  | nil =>
      exact ⟨[], by simp [processViolations, M.pure_apply], rfl, rfl,
        by simp [processViolations, M.pure_apply],
        fun r => by simp [processViolations, M.pure_apply]⟩
  | cons v rest ih =>
      obtain ⟨evs1, hev1, hx1, hp1, hk1, hsv1⟩ := processViolation_frame v s
      rcases hres : processViolation v s with ⟨res, s1⟩
      rw [hres] at hev1 hk1 hsv1
      dsimp only at hev1 hk1 hsv1
      cases res with
      | ok a =>
          obtain ⟨evs2, hev2, hx2, hp2, hk2, hsv2⟩ := ih s1
          refine ⟨evs1 ++ evs2, ?_, ?_, ?_, ?_, ?_⟩
          · simp only [processViolations, bind_eq, M.bind_apply, hres]
            simp [hev2, hev1]
          · simp [List.filter_append, hx1, hx2]
          · simp [List.filter_append, hp1, hp2]
          · simp only [processViolations, bind_eq, M.bind_apply, hres]
            simp [hk2, hk1]
          · intro r
            have h1 : getLabel s.state_violations r ≤
                getLabel s1.state_violations r := by
              rcases hsv1 with h | ⟨k, h⟩
              · rw [h]
              · rw [h]; exact getLabel_le_incLabel _ _ _
            have h2 := hsv2 r
            simp only [processViolations, bind_eq, M.bind_apply, hres]
            exact le_trans h1 h2
      | error e =>
          refine ⟨evs1, ?_, hx1, hp1, ?_, ?_⟩
          · simp only [processViolations, bind_eq, M.bind_apply, hres]
            exact hev1
          · simp only [processViolations, bind_eq, M.bind_apply, hres]
            exact hk1
          · intro r
            simp only [processViolations, bind_eq, M.bind_apply, hres]
            rcases hsv1 with h | ⟨k, h⟩
            · rw [h]
            · rw [h]; exact getLabel_le_incLabel _ _ _

theorem processKycAndPush_frame (w : World) (s : MState) :
    ∃ evs : List Event,
      (processKycAndPush w s).2.events = s.events ++ evs ∧
      evs.filter (Event.isMessageLevel "error") = [] ∧
      evs.filter (Event.isMessageLevel "fatal") = [] ∧
      evs.filter Event.isException = [] ∧
      evs.filter Event.isPagerPost = [] ∧
      (processKycAndPush w s).2.state_violations = s.state_violations := by
  cases hk : w.kycResp with
  | error e =>
      have hrun := processKycAndPush_fetch_error w s e hk
      exact ⟨[], by simp [hrun], rfl, rfl, rfl, rfl, by simp [hrun]⟩
  | ok obj =>
      cases hsz : lookupIntKey obj "size" with
      | none =>
          have hrun := processKycAndPush_size_missing w s obj hk hsz
          exact ⟨[], by simp [hrun], rfl, rfl, rfl, rfl, by simp [hrun]⟩
      | some n =>
          cases hp : w.pushResult with
          | error e =>
              have hrun := processKycAndPush_push_error w s obj n e hk hsz hp
              by_cases hq : n > 100
              · rw [if_pos hq] at hrun
                exact ⟨[kycWarnEvent n], by simp [hrun], rfl, rfl, rfl, rfl,
                  by simp [hrun]⟩
              · rw [if_neg hq] at hrun
                exact ⟨[], by simp [hrun], rfl, rfl, rfl, rfl, by simp [hrun]⟩
          | ok u =>
              cases u
              have hrun := processKycAndPush_ok w s obj n hk hsz hp
              by_cases hq : n > 100
              · rw [if_pos hq] at hrun
                exact ⟨[kycWarnEvent n,
                    .pushGateway w.prometheus_gateway "compliance_monitor"
                      s.state_violations n],
                  by simp [hrun], rfl, rfl, rfl, rfl, by simp [hrun]⟩
              · rw [if_neg hq] at hrun
                exact ⟨[.pushGateway w.prometheus_gateway "compliance_monitor"
                      s.state_violations n],
                  by simp [hrun], rfl, rfl, rfl, rfl, by simp [hrun]⟩

theorem cc_body_frame (w : World) (s : MState) :
    ∃ evs : List Event,
      (check_compliance_violations_body w s).2.events = s.events ++ evs ∧
      evs.filter Event.isException = [] ∧
      (∀ r, getLabel s.state_violations r ≤
        getLabel (check_compliance_violations_body w s).2.state_violations
          r) := by
  cases hv : w.violationsResp with
  | error e =>
      have hrun : check_compliance_violations_body w s = (.error e, s) := by
        simp [check_compliance_violations_body, bind_eq, M.bind_apply, hv,
          liftE_error, M.throw_apply]
      exact ⟨[], by simp [hrun], rfl, fun r => by simp [hrun]⟩
  | ok vs =>
      have hbody : check_compliance_violations_body w s =
          M.bind (processViolations vs) (fun _ => processKycAndPush w) s := by
        unfold check_compliance_violations_body
        rw [hv]
        rfl
      rw [M.bind_apply] at hbody
      obtain ⟨evs1, hev1, hx1, hp1, hk1, hsv1⟩ := processViolations_frame vs s
      rcases hres : processViolations vs s with ⟨res, s1⟩
      rw [hres] at hev1 hk1 hsv1 hbody
      dsimp only at hev1 hk1 hsv1 hbody
      cases res with
      | ok a =>
          obtain ⟨evs2, hev2, _, _, hx2, _, hsv2⟩ :=
            processKycAndPush_frame w s1
          refine ⟨evs1 ++ evs2, ?_, ?_, ?_⟩
          · rw [hbody]
            simp [hev2, hev1]
          · simp [List.filter_append, hx1, hx2]
          · intro r
            rw [hbody, hsv2]
            exact hsv1 r
      | error e =>
          refine ⟨evs1, ?_, hx1, ?_⟩
          · rw [hbody]
            exact hev1
          · intro r
            rw [hbody]
            exact hsv1 r

theorem cc_frame (w : World) (s : MState) :
    ∃ evs : List Event,
      (check_compliance_violations w s).2.events = s.events ++ evs ∧
      (∀ r, getLabel s.state_violations r ≤
        getLabel (check_compliance_violations w s).2.state_violations r) := by
  obtain ⟨evs1, hev1, hx1, hsv1⟩ := cc_body_frame w s
  rcases hres : check_compliance_violations_body w s with ⟨res, s1⟩
  rw [hres] at hev1 hsv1
  dsimp only at hev1
  cases res with
  | ok a =>
      cases a
      have hcc := cc_tryCatch_ok w s (by rw [hres])
      rw [hres] at hcc
      exact ⟨evs1, by simp [hcc, hev1], fun r => by rw [hcc]; exact hsv1 r⟩
  | error e =>
      have hcc := cc_tryCatch_error w s e (by rw [hres])
      rw [hres] at hcc
      refine ⟨evs1 ++ [.captureException e,
        .printLocal ("Error in compliance check: " ++ e.message)], ?_,
        fun r => ?_⟩
      · simp [hcc, hev1]
      · rw [hcc]
        exact hsv1 r

theorem cfi_body_frame (w : World) (s : MState) :
    ∃ evs : List Event,
      (check_financial_integrity_body w s).2.events = s.events ++ evs ∧
      (check_financial_integrity_body w s).2.state_violations
        = s.state_violations ∧
      (check_financial_integrity_body w s).2.kyc_queue_size
        = s.kyc_queue_size := by
  cases hv : w.integrityResp with
  | error e =>
      have hrun : check_financial_integrity_body w s = (.error e, s) := by
        simp [check_financial_integrity_body, bind_eq, M.bind_apply, hv,
          liftE_error, M.throw_apply]
      exact ⟨[], by simp [hrun], by simp [hrun], by simp [hrun]⟩
  | ok ig =>
      cases hb : ig.balanced with
      | none =>
          have hrun : check_financial_integrity_body w s =
              (.error (.keyError "balanced"), s) := by
            simp [check_financial_integrity_body, bind_eq, M.bind_apply, hv,
              liftE_ok, liftE_error, M.pure_apply, M.throw_apply,
              IntegrityResp.getBalanced, hb]
          exact ⟨[], by simp [hrun], by simp [hrun], by simp [hrun]⟩
      | some b =>
          cases b with
          | true =>
              have hrun := cfi_body_balanced w s ig hv hb
              exact ⟨[], by simp [hrun], by simp [hrun], by simp [hrun]⟩
          | false =>
              cases him : ig.imbalance with
              | none =>
                  have hrun : check_financial_integrity_body w s =
                      (.error (.keyError "imbalance"), s) := by
                    simp [check_financial_integrity_body, bind_eq,
                      M.bind_apply, hv, liftE_ok, liftE_error, M.pure_apply,
                      M.throw_apply, IntegrityResp.getBalanced, hb,
                      IntegrityResp.getImbalance, him]
                  exact ⟨[], by simp [hrun], by simp [hrun], by simp [hrun]⟩
              | some imb =>
                  cases ha : ig.affected_users with
                  | none =>
                      have hrun : check_financial_integrity_body w s =
                          (.error (.keyError "affected_users"), s) := by
                        simp [check_financial_integrity_body, bind_eq,
                          M.bind_apply, hv, liftE_ok, liftE_error,
                          M.pure_apply, M.throw_apply,
                          IntegrityResp.getBalanced, hb,
                          IntegrityResp.getImbalance, him,
                          IntegrityResp.getAffectedUsers, ha]
                      exact ⟨[], by simp [hrun], by simp [hrun],
                        by simp [hrun]⟩
                  | some aff =>
                      have hrun := cfi_body_unbalanced w s ig imb aff hv hb
                        him ha
                      cases hkey : w.pagerduty_key with
                      | none =>
                          have htr := trigger_no_key w "Ledger Imbalance"
                            ("Imbalance of " ++ toString imb ++ " detected")
                            { s with events :=
                              s.events ++ [fatalImbalanceEvent imb aff] } hkey
                          refine ⟨[fatalImbalanceEvent imb aff], ?_, ?_, ?_⟩
                            <;> simp [hrun, htr]
                      | some key =>
                          cases hp : w.pagerdutyResult with
                          | ok u =>
                              cases u
                              have htr := trigger_post_ok w
                                "Ledger Imbalance"
                                ("Imbalance of " ++ toString imb ++
                                  " detected")
                                { s with events :=
                                  s.events ++ [fatalImbalanceEvent imb aff] }
                                key hkey hp
                              refine ⟨[fatalImbalanceEvent imb aff,
                                .pagerdutyPost key "Ledger Imbalance"
                                  "luckxpress-monitor" "critical"
                                  ("Imbalance of " ++ toString imb ++
                                    " detected")], ?_, ?_, ?_⟩
                                <;> simp [hrun, htr]
                          | error e =>
                              have htr := trigger_post_error w
                                "Ledger Imbalance"
                                ("Imbalance of " ++ toString imb ++
                                  " detected")
                                { s with events :=
                                  s.events ++ [fatalImbalanceEvent imb aff] }
                                key e hkey hp
                              refine ⟨[fatalImbalanceEvent imb aff], ?_, ?_,
                                ?_⟩ <;> simp [hrun, htr]

theorem cfi_frame (w : World) (s : MState) :
    ∃ evs : List Event,
      (check_financial_integrity w s).2.events = s.events ++ evs ∧
      (check_financial_integrity w s).2.state_violations
        = s.state_violations ∧
      (check_financial_integrity w s).2.kyc_queue_size
        = s.kyc_queue_size := by
  obtain ⟨evs1, hev1, hsv1, hk1⟩ := cfi_body_frame w s
  rcases hres : check_financial_integrity_body w s with ⟨res, s1⟩
  rw [hres] at hev1 hsv1 hk1
  dsimp only at hev1 hsv1 hk1
  cases res with
  | ok a =>
      cases a
      have hcc := cfi_tryCatch_ok w s (by rw [hres])
      rw [hres] at hcc
      exact ⟨evs1, by simp [hcc, hev1], by simp [hcc, hsv1],
        by simp [hcc, hk1]⟩
  | error e =>
      have hcc := cfi_tryCatch_error w s e (by rw [hres])
      rw [hres] at hcc
      exact ⟨evs1 ++ [.captureException e], by simp [hcc, hev1],
        by simp [hcc, hsv1], by simp [hcc, hk1]⟩

/-! ## The compliance check on a well-formed violations response -/

theorem cc_run_frame (w : World) (s : MState)
    (vs : List (List (String × String))) (hv : w.violationsResp = .ok vs)
    (hwf : ∀ v ∈ vs, wfEntry v) :
    ∃ evs : List Event,
      (check_compliance_violations w s).2.state_violations
          = applyIncs s.state_violations vs ∧
      (check_compliance_violations w s).2.events
          = s.events ++ expectedViolationEvents vs ++ evs ∧
      evs.filter (Event.isMessageLevel "error") = [] := by
  have hbody := cc_body_run w s vs hv hwf
  obtain ⟨evs2, hev2, hferr2, _, _, _, hsv2⟩ :=
    processKycAndPush_frame w { s with
      state_violations := applyIncs s.state_violations vs,
      events := s.events ++ expectedViolationEvents vs }
  rcases hres : processKycAndPush w { s with
      state_violations := applyIncs s.state_violations vs,
      events := s.events ++ expectedViolationEvents vs } with ⟨res, s2⟩
  rw [hres] at hev2 hsv2
  dsimp only at hev2 hsv2
  cases res with
  | ok a =>
      cases a
      have hcc := cc_tryCatch_ok w s (by rw [hbody, hres])
      rw [hbody, hres] at hcc
      exact ⟨evs2, by rw [hcc]; exact hsv2, by rw [hcc]; exact hev2, hferr2⟩
  | error e =>
      have hcc := cc_tryCatch_error w s e (by rw [hbody, hres])
      rw [hbody, hres] at hcc
      dsimp only at hcc
      refine ⟨evs2 ++ [.captureException e,
        .printLocal ("Error in compliance check: " ++ e.message)], ?_, ?_,
        ?_⟩
      · rw [hcc]
        exact hsv2
      · rw [hcc]
        dsimp only
        rw [hev2]
        simp
      · simp [List.filter_append, hferr2, Event.isMessageLevel,
          List.filter]

/-- C1: for every violations response that decodes to a list `vs` of
well-formed entries, one call to `check_compliance_violations` appends to the
error-level notifications exactly the `countMatching vs` messages of the
`STATE_RESTRICTION` entries, each carrying that entry's user_id, state and
timestamp as extras, and raises the per-state counter of every region `r` by
the number of matching entries whose state is `r`. -/
theorem C1_state_restriction_flow (w : World) (s : MState)
    (vs : List (List (String × String))) (hv : w.violationsResp = .ok vs)
    (hwf : ∀ v ∈ vs, wfEntry v) :
    (check_compliance_violations w s).2.events.filter
        (Event.isMessageLevel "error")
      = s.events.filter (Event.isMessageLevel "error")
          ++ expectedViolationEvents vs ∧
    countLevel (check_compliance_violations w s).2.events "error"
      = countLevel s.events "error" + countMatching vs ∧
    ∀ r, getLabel (check_compliance_violations w s).2.state_violations r
      = getLabel s.state_violations r + countMatchingState vs r := by
  obtain ⟨evs, hsv, hev, hferr⟩ := cc_run_frame w s vs hv hwf
  refine ⟨?_, ?_, ?_⟩
  · rw [hev]
    simp [List.filter_append, filter_error_expected, hferr]
  · unfold countLevel
    rw [hev]
    simp [List.filter_append, filter_error_expected, hferr,
      length_expectedViolationEvents]
  · intro r
    rw [hsv]
    exact getLabel_applyIncs vs hwf s.state_violations r

/-- Witness for C1 at a concrete two-entry response (one matching TX entry,
one non-matching entry): one error notification, TX counter delta 1. -/
theorem C1_state_restriction_flow_witness :
    countLevel (check_compliance_violations
        ⟨.ok [[("type", "STATE_RESTRICTION"), ("state", "TX"),
            ("user_id", "u1"), ("timestamp", "T")],
          [("type", "DAILY_LIMIT"), ("state", "CA"), ("user_id", "u2"),
            ("timestamp", "T2")]],
         .ok [("size", 50)], .ok (), .ok ⟨some true, none, none⟩, .ok (),
         none, "localhost:9091"⟩ initState).2.events "error"
      = countLevel initState.events "error" +
          countMatching [[("type", "STATE_RESTRICTION"), ("state", "TX"),
            ("user_id", "u1"), ("timestamp", "T")],
          [("type", "DAILY_LIMIT"), ("state", "CA"), ("user_id", "u2"),
            ("timestamp", "T2")]] ∧
    getLabel (check_compliance_violations
        ⟨.ok [[("type", "STATE_RESTRICTION"), ("state", "TX"),
            ("user_id", "u1"), ("timestamp", "T")],
          [("type", "DAILY_LIMIT"), ("state", "CA"), ("user_id", "u2"),
            ("timestamp", "T2")]],
         .ok [("size", 50)], .ok (), .ok ⟨some true, none, none⟩, .ok (),
         none, "localhost:9091"⟩ initState).2.state_violations "TX"
      = getLabel initState.state_violations "TX" +
          countMatchingState [[("type", "STATE_RESTRICTION"), ("state", "TX"),
            ("user_id", "u1"), ("timestamp", "T")],
          [("type", "DAILY_LIMIT"), ("state", "CA"), ("user_id", "u2"),
            ("timestamp", "T2")]] "TX" :=
  ⟨(C1_state_restriction_flow _ initState _ rfl (by decide)).2.1,
   (C1_state_restriction_flow _ initState _ rfl (by decide)).2.2 "TX"⟩

/-- C3: when the violations flow succeeds and the KYC queue-size response
returns `n`, the queue gauge is set to `n` (an absolute set), no warning is
emitted when `n ≤ 100`, and exactly one warning whose message embeds the
literal size is emitted when `n > 100` — independently of whether the final
metrics push succeeds. -/
theorem C3_kyc_queue_threshold (w : World) (s : MState)
    (vs : List (List (String × String))) (obj : List (String × Int)) (n : Int)
    (hv : w.violationsResp = .ok vs) (hwf : ∀ v ∈ vs, wfEntry v)
    (hk : w.kycResp = .ok obj) (hsz : lookupIntKey obj "size" = some n) :
    (check_compliance_violations w s).2.kyc_queue_size = n ∧
    (check_compliance_violations w s).2.events.filter
        (Event.isMessageLevel "warning")
      = s.events.filter (Event.isMessageLevel "warning")
          ++ (if n > 100 then [kycWarnEvent n] else []) ∧
    countLevel (check_compliance_violations w s).2.events "warning"
      = countLevel s.events "warning" + (if n > 100 then 1 else 0) ∧
    ∃ a b, kycWarnEvent n
      = .captureMessage (a ++ toString n ++ b) "warning" [] := by
  have hbody := cc_body_run w s vs hv hwf
  have hwarn : (if n > 100 then [kycWarnEvent n] else []).filter
      (Event.isMessageLevel "warning")
      = (if n > 100 then [kycWarnEvent n] else []) := by
    by_cases hq : n > 100
    · rw [if_pos hq]; rfl
    · rw [if_neg hq]; rfl
  have hlen : ((if n > 100 then [kycWarnEvent n] else []) : List Event).length
      = (if n > 100 then 1 else 0) := by
    by_cases hq : n > 100
    · rw [if_pos hq, if_pos hq]; rfl
    · rw [if_neg hq, if_neg hq]; rfl
  cases hp : w.pushResult with
  | ok u =>
      cases u
      have hrun := processKycAndPush_ok w { s with
          state_violations := applyIncs s.state_violations vs,
          events := s.events ++ expectedViolationEvents vs } obj n hk hsz hp
      have hcc := cc_tryCatch_ok w s (by rw [hbody, hrun])
      rw [hbody, hrun] at hcc
      dsimp only at hcc
      refine ⟨by rw [hcc], ?_, ?_, ⟨"KYC queue backlog: ", " cases pending",
        rfl⟩⟩
      · rw [hcc]
        dsimp only
        simp only [List.filter_append, filter_warning_expected, hwarn]
        simp [Event.isMessageLevel, List.filter]
      · unfold countLevel
        rw [hcc]
        dsimp only
        simp only [List.filter_append, filter_warning_expected, hwarn]
        simp [Event.isMessageLevel, List.filter, hlen]
  | error e =>
      have hrun := processKycAndPush_push_error w { s with
          state_violations := applyIncs s.state_violations vs,
          events := s.events ++ expectedViolationEvents vs } obj n e hk hsz hp
      have hcc := cc_tryCatch_error w s e (by rw [hbody, hrun])
      rw [hbody, hrun] at hcc
      dsimp only at hcc
      refine ⟨by rw [hcc], ?_, ?_, ⟨"KYC queue backlog: ", " cases pending",
        rfl⟩⟩
      · rw [hcc]
        dsimp only
        simp only [List.filter_append, filter_warning_expected, hwarn]
        simp [Event.isMessageLevel, List.filter]
      · unfold countLevel
        rw [hcc]
        dsimp only
        simp only [List.filter_append, filter_warning_expected, hwarn]
        simp [Event.isMessageLevel, List.filter, hlen]

/-- Witness for C3 at queue size 150 (> 100): gauge 150 and exactly one
warning. -/
theorem C3_kyc_queue_threshold_witness :
    (check_compliance_violations
        ⟨.ok [], .ok [("size", 150)], .ok (), .ok ⟨some true, none, none⟩,
         .ok (), none, "localhost:9091"⟩ initState).2.kyc_queue_size = 150 ∧
    countLevel (check_compliance_violations
        ⟨.ok [], .ok [("size", 150)], .ok (), .ok ⟨some true, none, none⟩,
         .ok (), none, "localhost:9091"⟩ initState).2.events "warning"
      = countLevel initState.events "warning" + (if (150 : Int) > 100 then 1
          else 0) :=
  ⟨(C3_kyc_queue_threshold _ initState [] [("size", 150)] 150 rfl
      (by decide) rfl rfl).1,
   (C3_kyc_queue_threshold _ initState [] [("size", 150)] 150 rfl
      (by decide) rfl rfl).2.2.1⟩

/-- C10: an entry whose `type` field is anything other than
`STATE_RESTRICTION` has no effect at all: `processViolation` returns
successfully with the monitor state unchanged, whatever the entry's other
fields are. -/
theorem C10_non_matching_entry_frame (v : List (String × String))
    (s : MState) (t : String) (ht : lookupKey v "type" = some t)
    (hne : t ≠ "STATE_RESTRICTION") :
    processViolation v s = (.ok (), s) := by
  simp [processViolation, getItem, ht, bind_eq, M.bind_apply, liftE_ok,
    M.pure_apply, hne]

/-- Witness for C10 at a concrete non-matching entry. -/
theorem C10_non_matching_entry_frame_witness :
    processViolation [("type", "DAILY_LIMIT"), ("state", "TX"),
      ("user_id", "u1"), ("timestamp", "T")] initState
      = (.ok (), initState) :=
  C10_non_matching_entry_frame _ initState "DAILY_LIMIT" rfl (by decide)

/-- C8: on the end-to-end fixture (one TX violation, queue size 50, balanced
ledger) a single cycle from a fresh monitor returns successfully with the TX
counter at 1, the queue gauge at 50, and exactly these events: one
error-level notification and one metrics push carrying TX ↦ 1 and gauge 50 —
no warning, no fatal, no paging. -/
theorem C8_end_to_end :
    run_cycle endToEndWorld initState
        = (.ok (), ⟨[("TX", 1)], 50, endToEndEvents⟩) ∧
    countLevel endToEndEvents "error" = 1 ∧
    countLevel endToEndEvents "warning" = 0 ∧
    countLevel endToEndEvents "fatal" = 0 ∧
    countPush endToEndEvents = 1 ∧
    countPagerPost endToEndEvents = 0 ∧
    endToEndEvents.filter Event.isPush
      = [.pushGateway "localhost:9091" "compliance_monitor" [("TX", 1)] 50] :=
  ⟨rfl, rfl, rfl, rfl, rfl, rfl, rfl⟩

/-! ## Small evaluation facts about concrete event lists -/

theorem fatal_filter_fatal (imb : Int) (aff : List String) :
    List.filter (Event.isMessageLevel "fatal") [fatalImbalanceEvent imb aff]
      = [fatalImbalanceEvent imb aff] := rfl

theorem post_filter_fatal (key : String) (imb : Int) :
    List.filter (Event.isMessageLevel "fatal")
      [pagerdutyImbalanceEvent key imb] = [] := rfl

theorem fatal_filter_pager (imb : Int) (aff : List String) :
    List.filter Event.isPagerPost [fatalImbalanceEvent imb aff] = [] := rfl

theorem post_filter_pager (key : String) (imb : Int) :
    List.filter Event.isPagerPost [pagerdutyImbalanceEvent key imb]
      = [pagerdutyImbalanceEvent key imb] := rfl

theorem fatal_exc_filter_exception (imb : Int) (aff : List String) (e : Err) :
    List.filter Event.isException
      [fatalImbalanceEvent imb aff, Event.captureException e]
      = [Event.captureException e] := rfl

theorem exc_print_filter_exception (e : Err) (m : String) :
    List.filter Event.isException
      [Event.captureException e, Event.printLocal m]
      = [Event.captureException e] := rfl

theorem exc_print_filter_push (e : Err) (m : String) :
    List.filter Event.isPush
      [Event.captureException e, Event.printLocal m] = [] := rfl

theorem fatal_filter_exception (imb : Int) (aff : List String) :
    List.filter Event.isException [fatalImbalanceEvent imb aff] = [] := rfl

theorem exc_filter_exception (e : Err) :
    List.filter Event.isException [Event.captureException e]
      = [Event.captureException e] := rfl

/-- C2: with a decodable integrity response carrying `balanced`, `imbalance`
and `affected_users`, a configured paging key and a deliverable POST,
`check_financial_integrity` appends exactly one fatal notification (whose
extras hold the imbalance amount and affected users) and exactly one
PagerDuty event when `balanced` is false, and when `balanced` is true it is a
no-op: no notification, no paging call, state unchanged. -/
theorem C2_integrity_alerting (w : World) (s : MState) (ig : IntegrityResp)
    (b : Bool) (imb : Int) (aff : List String) (key : String)
    (hi : w.integrityResp = .ok ig) (hb : ig.balanced = some b)
    (him : ig.imbalance = some imb) (ha : ig.affected_users = some aff)
    (hkey : w.pagerduty_key = some key) (hp : w.pagerdutyResult = .ok ()) :
    (check_financial_integrity w s).2.events.filter
        (Event.isMessageLevel "fatal")
      = s.events.filter (Event.isMessageLevel "fatal")
          ++ (if b then [] else [fatalImbalanceEvent imb aff]) ∧
    (check_financial_integrity w s).2.events.filter Event.isPagerPost
      = s.events.filter Event.isPagerPost
          ++ (if b then [] else [pagerdutyImbalanceEvent key imb]) ∧
    (b = true → check_financial_integrity w s = (.ok (), s)) := by
  cases b with
  | true =>
      have hrun := cfi_body_balanced w s ig hi hb
      have hcc := cfi_tryCatch_ok w s (by rw [hrun])
      rw [hrun] at hcc
      refine ⟨?_, ?_, fun _ => hcc⟩ <;> simp [hcc]
  | false =>
      have hrun := cfi_body_unbalanced w s ig imb aff hi hb him ha
      have htr := trigger_post_ok w "Ledger Imbalance"
        ("Imbalance of " ++ toString imb ++ " detected")
        { s with events := s.events ++ [fatalImbalanceEvent imb aff] } key
        hkey hp
      have hbody : check_financial_integrity_body w s =
          (.ok (), { s with events := (s.events ++
            [fatalImbalanceEvent imb aff]) ++
            [pagerdutyImbalanceEvent key imb] }) := by
        rw [hrun, htr]
        rfl
      have hcc := cfi_tryCatch_ok w s (by rw [hbody])
      rw [hbody] at hcc
      refine ⟨?_, ?_, fun hbt => by cases hbt⟩
      · rw [hcc]
        dsimp only
        simp only [List.filter_append, fatal_filter_fatal, post_filter_fatal]
        simp
      · rw [hcc]
        dsimp only
        simp only [List.filter_append, fatal_filter_pager, post_filter_pager]
        simp

/-- Witness for C2 on an unbalanced report (imbalance 250, two users, key
configured): one fatal and one PagerDuty event. -/
theorem C2_integrity_alerting_witness :
    (check_financial_integrity
        ⟨.ok [], .ok [("size", 0)], .ok (),
         .ok ⟨some false, some 250, some ["u1", "u2"]⟩, .ok (), some "KEY",
         "localhost:9091"⟩ initState).2.events.filter
        (Event.isMessageLevel "fatal")
      = initState.events.filter (Event.isMessageLevel "fatal")
          ++ (if false then [] else [fatalImbalanceEvent 250 ["u1", "u2"]]) ∧
    (check_financial_integrity
        ⟨.ok [], .ok [("size", 0)], .ok (),
         .ok ⟨some false, some 250, some ["u1", "u2"]⟩, .ok (), some "KEY",
         "localhost:9091"⟩ initState).2.events.filter Event.isPagerPost
      = initState.events.filter Event.isPagerPost
          ++ (if false then []
              else [pagerdutyImbalanceEvent "KEY" 250]) :=
  ⟨(C2_integrity_alerting _ initState _ false 250 ["u1", "u2"] "KEY" rfl rfl
      rfl rfl rfl rfl).1,
   (C2_integrity_alerting _ initState _ false 250 ["u1", "u2"] "KEY" rfl rfl
      rfl rfl rfl rfl).2.1⟩

/-- C6: on an unbalanced report with no paging credential configured, the
fatal notification is still emitted but no PagerDuty POST is performed. -/
theorem C6_unbalanced_without_key (w : World) (s : MState)
    (ig : IntegrityResp) (imb : Int) (aff : List String)
    (hi : w.integrityResp = .ok ig) (hb : ig.balanced = some false)
    (him : ig.imbalance = some imb) (ha : ig.affected_users = some aff)
    (hkey : w.pagerduty_key = none) :
    check_financial_integrity w s
      = (.ok (), { s with events := s.events ++
          [fatalImbalanceEvent imb aff] }) ∧
    countLevel (check_financial_integrity w s).2.events "fatal"
      = countLevel s.events "fatal" + 1 ∧
    countPagerPost (check_financial_integrity w s).2.events
      = countPagerPost s.events := by
  have hrun := cfi_body_unbalanced w s ig imb aff hi hb him ha
  have htr := trigger_no_key w "Ledger Imbalance"
    ("Imbalance of " ++ toString imb ++ " detected")
    { s with events := s.events ++ [fatalImbalanceEvent imb aff] } hkey
  have hbody : check_financial_integrity_body w s =
      (.ok (), { s with events := s.events ++
        [fatalImbalanceEvent imb aff] }) := by
    rw [hrun, htr]
  have hcc := cfi_tryCatch_ok w s (by rw [hbody])
  rw [hbody] at hcc
  refine ⟨hcc, ?_, ?_⟩
  · unfold countLevel
    rw [hcc]
    dsimp only
    simp only [List.filter_append, fatal_filter_fatal]
    simp
  · unfold countPagerPost
    rw [hcc]
    dsimp only
    simp only [List.filter_append, fatal_filter_pager]
    simp

/-- Witness for C6 at a concrete unbalanced, keyless world. -/
theorem C6_unbalanced_without_key_witness :
    check_financial_integrity
        ⟨.ok [], .ok [("size", 0)], .ok (),
         .ok ⟨some false, some 7, some ["u9"]⟩, .ok (), none,
         "localhost:9091"⟩ initState
      = (.ok (), { initState with events := initState.events ++
          [fatalImbalanceEvent 7 ["u9"]] }) :=
  (C6_unbalanced_without_key _ initState _ 7 ["u9"] rfl rfl rfl rfl rfl).1

/-- C5 counterexample: a failing PagerDuty POST during an unbalanced cycle is
NOT an unhandled fault of the program: at this concrete input the enclosing
`check_financial_integrity` returns normally and one captured-exception
report is made for it, contradicting the claim that no error boundary
handles it and no report is made. -/
theorem C5_paging_failure_counterexample :
    (check_financial_integrity
        ⟨.ok [], .ok [("size", 0)], .ok (),
         .ok ⟨some false, some 250, some ["u1"]⟩,
         .error (.netError "connection refused"), some "KEY",
         "localhost:9091"⟩ initState).1 = .ok () ∧
    countExceptions (check_financial_integrity
        ⟨.ok [], .ok [("size", 0)], .ok (),
         .ok ⟨some false, some 250, some ["u1"]⟩,
         .error (.netError "connection refused"), some "KEY",
         "localhost:9091"⟩ initState).2.events = 1 :=
  ⟨rfl, rfl⟩

/-- C5 (amended): a failing paging POST propagates out of
`trigger_pagerduty_alert` itself (which has no handler), but it is then
caught by `check_financial_integrity`'s error boundary, which reports it to
the error-tracking sink exactly once; it does not escape
`check_financial_integrity`. -/
theorem C5_paging_failure_contained (w : World) (s : MState)
    (ig : IntegrityResp) (imb : Int) (aff : List String) (key : String)
    (e : Err) (t m : String)
    (hi : w.integrityResp = .ok ig) (hb : ig.balanced = some false)
    (him : ig.imbalance = some imb) (ha : ig.affected_users = some aff)
    (hkey : w.pagerduty_key = some key) (hp : w.pagerdutyResult = .error e) :
    (trigger_pagerduty_alert w t m s).1 = .error e ∧
    (check_financial_integrity w s).1 = .ok () ∧
    (check_financial_integrity w s).2.events
      = s.events ++ [fatalImbalanceEvent imb aff, .captureException e] ∧
    countExceptions (check_financial_integrity w s).2.events
      = countExceptions s.events + 1 := by
  have htr0 := trigger_post_error w t m s key e hkey hp
  have hrun := cfi_body_unbalanced w s ig imb aff hi hb him ha
  have htr := trigger_post_error w "Ledger Imbalance"
    ("Imbalance of " ++ toString imb ++ " detected")
    { s with events := s.events ++ [fatalImbalanceEvent imb aff] } key e
    hkey hp
  have hbody : check_financial_integrity_body w s =
      (.error e, { s with events := s.events ++
        [fatalImbalanceEvent imb aff] }) := by
    rw [hrun, htr]
  have hcc := cfi_tryCatch_error w s e (by rw [hbody])
  rw [hbody] at hcc
  dsimp only at hcc
  refine ⟨by rw [htr0], by rw [hcc], ?_, ?_⟩
  · rw [hcc]
    simp
  · unfold countExceptions
    rw [hcc]
    dsimp only
    simp only [List.filter_append, fatal_filter_exception,
      exc_filter_exception]
    simp

/-- Witness for the amended C5 at a concrete world. -/
theorem C5_paging_failure_contained_witness :
    (trigger_pagerduty_alert
        ⟨.ok [], .ok [("size", 0)], .ok (),
         .ok ⟨some false, some 250, some ["u1"]⟩,
         .error (.netError "timeout"), some "KEY", "localhost:9091"⟩
        "t" "m" initState).1 = .error (.netError "timeout") ∧
    (check_financial_integrity
        ⟨.ok [], .ok [("size", 0)], .ok (),
         .ok ⟨some false, some 250, some ["u1"]⟩,
         .error (.netError "timeout"), some "KEY", "localhost:9091"⟩
        initState).2.events
      = initState.events ++ [fatalImbalanceEvent 250 ["u1"],
          .captureException (.netError "timeout")] :=
  ⟨(C5_paging_failure_contained _ initState _ 250 ["u1"] "KEY"
      (.netError "timeout") "t" "m" rfl rfl rfl rfl rfl rfl).1,
   (C5_paging_failure_contained _ initState _ 250 ["u1"] "KEY"
      (.netError "timeout") "t" "m" rfl rfl rfl rfl rfl rfl).2.2.1⟩

/-- C4: any exception inside the protected body of
`check_compliance_violations` is caught there: the call returns normally,
exactly one captured-exception report is appended together with the local
print of the error message, and the cycle goes on — `check_financial_integrity`
still runs in the same cycle and the loop proceeds to the next cycle. -/
theorem C4_compliance_error_boundary (w : World) (s : MState) (e : Err)
    (h : (check_compliance_violations_body w s).1 = .error e) :
    (check_compliance_violations w s).1 = .ok () ∧
    (check_compliance_violations w s).2.events
      = (check_compliance_violations_body w s).2.events ++
        [.captureException e,
         .printLocal ("Error in compliance check: " ++ e.message)] ∧
    countExceptions (check_compliance_violations w s).2.events
      = countExceptions s.events + 1 ∧
    run_cycle w s
      = check_financial_integrity w ((check_compliance_violations w s).2) ∧
    ∀ ws, runCycles (w :: ws) s = runCycles ws ((run_cycle w s).2) := by
  have hcc := cc_tryCatch_error w s e h
  obtain ⟨evs1, hev1, hx1, _⟩ := cc_body_frame w s
  refine ⟨by rw [hcc], by rw [hcc], ?_, run_cycle_eq w s,
    fun ws => runCycles_cons w ws s⟩
  unfold countExceptions
  rw [hcc]
  dsimp only
  rw [hev1, List.append_assoc]
  simp only [List.filter_append, hx1, exc_print_filter_exception]
  simp

/-- Witness for C4: the violations fetch itself fails with a network error;
the check still returns normally, reports once, and the loop continues. -/
theorem C4_compliance_error_boundary_witness :
    (check_compliance_violations
        ⟨.error (.netError "timeout"), .ok [("size", 0)], .ok (),
         .ok ⟨some true, none, none⟩, .ok (), none, "localhost:9091"⟩
        initState).1 = .ok () ∧
    countExceptions (check_compliance_violations
        ⟨.error (.netError "timeout"), .ok [("size", 0)], .ok (),
         .ok ⟨some true, none, none⟩, .ok (), none, "localhost:9091"⟩
        initState).2.events
      = countExceptions initState.events + 1 ∧
    runCycles [⟨.error (.netError "timeout"), .ok [("size", 0)], .ok (),
         .ok ⟨some true, none, none⟩, .ok (), none, "localhost:9091"⟩]
        initState
      = runCycles []
          ((run_cycle ⟨.error (.netError "timeout"), .ok [("size", 0)],
            .ok (), .ok ⟨some true, none, none⟩, .ok (), none,
            "localhost:9091"⟩ initState).2) :=
  by
  have h := C4_compliance_error_boundary
    ⟨.error (.netError "timeout"), .ok [("size", 0)], .ok (),
     .ok ⟨some true, none, none⟩, .ok (), none, "localhost:9091"⟩
    initState (.netError "timeout") rfl
  exact ⟨h.1, h.2.2.1, h.2.2.2.2 []⟩

/-- C7: the per-region violation counters are never reset or decreased by
the loop: across one cycle and across any finite sequence of cycles (each
with arbitrary responses, including failures), every region's counter value
only grows, so the value pushed to the gateway each cycle is the cumulative
total over the process lifetime. -/
theorem C7_counters_monotone (w : World) (ws : List World) (s : MState)
    (r : String) :
    getLabel s.state_violations r
        ≤ getLabel ((run_cycle w s).2).state_violations r ∧
    getLabel s.state_violations r
        ≤ getLabel ((runCycles ws s).2).state_violations r := by
  have hcycle : ∀ (w0 : World) (s0 : MState),
      getLabel s0.state_violations r
        ≤ getLabel ((run_cycle w0 s0).2).state_violations r := by
    intro w0 s0
    rw [run_cycle_eq]
    obtain ⟨evs1, _, hmono⟩ := cc_frame w0 s0
    obtain ⟨evs2, _, hsv2, _⟩ :=
      cfi_frame w0 ((check_compliance_violations w0 s0).2)
    rw [hsv2]
    exact hmono r
  have hall : ∀ (ws0 : List World) (s0 : MState),
      getLabel s0.state_violations r
        ≤ getLabel ((runCycles ws0 s0).2).state_violations r := by
    intro ws0
    induction ws0 with
    | nil => intro s0; simp [runCycles, M.pure_apply]
    | cons w0 rest ih =>
        intro s0
        rw [runCycles_cons]
        exact le_trans (hcycle w0 s0) (ih _)
  exact ⟨hcycle w s, hall ws s⟩

/-! ## Splitting the violations loop -/

theorem processViolations_append (xs ys : List (List (String × String)))
    (s : MState) :
    processViolations (xs ++ ys) s =
      M.bind (processViolations xs) (fun _ => processViolations ys) s := by
  induction xs generalizing s with
  | nil =>
      simp [processViolations, M.bind_apply, M.pure_apply]
  | cons v xs0 ih =>
      simp only [List.cons_append, processViolations, bind_eq, M.bind_apply]
      rcases hres : processViolation v s with ⟨res, s1⟩
      cases res with
      | ok a => exact ih s1
      | error e => rfl

theorem cc_run_aborted (w : World) (s : MState)
    (pre : List (List (String × String))) (bad : List (String × String))
    (rest : List (List (String × String))) (k : String)
    (f : List (String × Nat) → List (String × Nat))
    (hv : w.violationsResp = .ok (pre ++ bad :: rest))
    (hwf : ∀ v ∈ pre, wfEntry v)
    (hbadrun : ∀ s1 : MState, processViolation bad s1 =
      (.error (.keyError k),
       { s1 with state_violations := f s1.state_violations })) :
    check_compliance_violations w s
      = (.ok (), ⟨f (applyIncs s.state_violations pre), s.kyc_queue_size,
          s.events ++ expectedViolationEvents pre ++
            [.captureException (.keyError k),
             .printLocal ("Error in compliance check: " ++
               (Err.keyError k).message)]⟩) := by
  have hpre := processViolations_run pre hwf s
  have hsplit : processViolations (pre ++ bad :: rest) s =
      (.error (.keyError k),
       ⟨f (applyIncs s.state_violations pre), s.kyc_queue_size,
        s.events ++ expectedViolationEvents pre⟩) := by
    rw [processViolations_append, M.bind_apply, hpre]
    dsimp only
    simp only [processViolations, bind_eq, M.bind_apply, hbadrun]
  have hb0 : check_compliance_violations_body w s =
      M.bind (processViolations (pre ++ bad :: rest))
        (fun _ => processKycAndPush w) s := by
    unfold check_compliance_violations_body
    rw [hv]
    rfl
  have hbody : check_compliance_violations_body w s =
      (.error (.keyError k),
       ⟨f (applyIncs s.state_violations pre), s.kyc_queue_size,
        s.events ++ expectedViolationEvents pre⟩) := by
    rw [hb0, M.bind_apply, hsplit]
  have hcc := cc_tryCatch_error w s (.keyError k) (by rw [hbody])
  rw [hbody] at hcc
  exact hcc

/-- C9: error recovery in `check_compliance_violations` is not atomic.  If a
`STATE_RESTRICTION` entry `bad` sits after well-formed entries `pre` and is
missing one of the keys the handler reads, the resulting `KeyError` is caught
and reported exactly once, the notifications and counter increments already
produced for `pre` are kept (not rolled back), and the KYC fetch, gauge set
and metrics push of that cycle never happen (the gauge keeps its old value
and no push event is logged). -/
theorem C9_malformed_entry_partial_effects (w : World) (s : MState)
    (pre : List (List (String × String))) (bad : List (String × String))
    (rest : List (List (String × String)))
    (hv : w.violationsResp = .ok (pre ++ bad :: rest))
    (hwf : ∀ v ∈ pre, wfEntry v)
    (htype : lookupKey bad "type" = some "STATE_RESTRICTION")
    (hbad : lookupKey bad "state" = none ∨ lookupKey bad "user_id" = none ∨
      lookupKey bad "timestamp" = none) :
    ∃ (k : String) (l : List (String × Nat)),
      (k = "state" ∨ k = "user_id" ∨ k = "timestamp") ∧
      check_compliance_violations w s
        = (.ok (), ⟨l, s.kyc_queue_size,
            s.events ++ expectedViolationEvents pre ++
              [.captureException (.keyError k),
               .printLocal ("Error in compliance check: " ++
                 (Err.keyError k).message)]⟩) ∧
      (∀ r, getLabel (applyIncs s.state_violations pre) r ≤ getLabel l r) ∧
      countExceptions (check_compliance_violations w s).2.events
        = countExceptions s.events + 1 ∧
      (check_compliance_violations w s).2.events.filter Event.isPush
        = s.events.filter Event.isPush := by
  have main : ∃ (k : String) (l : List (String × Nat)),
      (k = "state" ∨ k = "user_id" ∨ k = "timestamp") ∧
      check_compliance_violations w s
        = (.ok (), ⟨l, s.kyc_queue_size,
            s.events ++ expectedViolationEvents pre ++
              [.captureException (.keyError k),
               .printLocal ("Error in compliance check: " ++
                 (Err.keyError k).message)]⟩) ∧
      (∀ r, getLabel (applyIncs s.state_violations pre) r ≤ getLabel l r) := by
    cases hst : lookupKey bad "state" with
    | none =>
        refine ⟨"state", applyIncs s.state_violations pre, Or.inl rfl,
          ?_, fun r => le_refl _⟩
        refine cc_run_aborted w s pre bad rest "state" (fun l => l) hv hwf
          (fun s1 => ?_)
        simp [processViolation, getItem, htype, hst, bind_eq, M.bind_apply,
          liftE_ok, liftE_error, M.pure_apply, M.throw_apply]
    | some st =>
        cases huid : lookupKey bad "user_id" with
        | none =>
            refine ⟨"user_id",
              incLabel (applyIncs s.state_violations pre) st,
              Or.inr (Or.inl rfl), ?_,
              fun r => getLabel_le_incLabel _ _ _⟩
            refine cc_run_aborted w s pre bad rest "user_id"
              (fun l => incLabel l st) hv hwf (fun s1 => ?_)
            simp [processViolation, getItem, htype, hst, huid, bind_eq,
              M.bind_apply, liftE_ok, liftE_error, M.pure_apply,
              M.throw_apply, incStateViolation_apply]
        | some uid =>
            cases hts : lookupKey bad "timestamp" with
            | none =>
                refine ⟨"timestamp",
                  incLabel (applyIncs s.state_violations pre) st,
                  Or.inr (Or.inr rfl), ?_,
                  fun r => getLabel_le_incLabel _ _ _⟩
                refine cc_run_aborted w s pre bad rest "timestamp"
                  (fun l => incLabel l st) hv hwf (fun s1 => ?_)
                simp [processViolation, getItem, htype, hst, huid, hts,
                  bind_eq, M.bind_apply, liftE_ok, liftE_error, M.pure_apply,
                  M.throw_apply, incStateViolation_apply]
            | some ts =>
                rcases hbad with h | h | h <;> simp_all
  obtain ⟨k, l, hk, hcc, hle⟩ := main
  refine ⟨k, l, hk, hcc, hle, ?_, ?_⟩
  · unfold countExceptions
    rw [hcc]
    dsimp only
    simp only [List.filter_append, filter_exception_expected,
      exc_print_filter_exception]
    simp
  · rw [hcc]
    dsimp only
    simp only [List.filter_append, filter_push_expected,
      exc_print_filter_push]
    simp

/-- Witness for C9: one well-formed TX entry followed by a matching entry
with no `state` key. -/
theorem C9_malformed_entry_partial_effects_witness :
    ∃ (k : String) (l : List (String × Nat)),
      (k = "state" ∨ k = "user_id" ∨ k = "timestamp") ∧
      check_compliance_violations
          ⟨.ok [[("type", "STATE_RESTRICTION"), ("state", "TX"),
              ("user_id", "u1"), ("timestamp", "T")],
            [("type", "STATE_RESTRICTION"), ("user_id", "u2")]],
           .ok [("size", 50)], .ok (), .ok ⟨some true, none, none⟩, .ok (),
           none, "localhost:9091"⟩ initState
        = (.ok (), ⟨l, initState.kyc_queue_size,
            initState.events ++ expectedViolationEvents
                [[("type", "STATE_RESTRICTION"), ("state", "TX"),
                  ("user_id", "u1"), ("timestamp", "T")]] ++
              [.captureException (.keyError k),
               .printLocal ("Error in compliance check: " ++
                 (Err.keyError k).message)]⟩) ∧
      (∀ r, getLabel (applyIncs initState.state_violations
          [[("type", "STATE_RESTRICTION"), ("state", "TX"),
            ("user_id", "u1"), ("timestamp", "T")]]) r ≤ getLabel l r) ∧
      countExceptions (check_compliance_violations
          ⟨.ok [[("type", "STATE_RESTRICTION"), ("state", "TX"),
              ("user_id", "u1"), ("timestamp", "T")],
            [("type", "STATE_RESTRICTION"), ("user_id", "u2")]],
           .ok [("size", 50)], .ok (), .ok ⟨some true, none, none⟩, .ok (),
           none, "localhost:9091"⟩ initState).2.events
        = countExceptions initState.events + 1 ∧
      (check_compliance_violations
          ⟨.ok [[("type", "STATE_RESTRICTION"), ("state", "TX"),
              ("user_id", "u1"), ("timestamp", "T")],
            [("type", "STATE_RESTRICTION"), ("user_id", "u2")]],
           .ok [("size", 50)], .ok (), .ok ⟨some true, none, none⟩, .ok (),
           none, "localhost:9091"⟩ initState).2.events.filter Event.isPush
        = initState.events.filter Event.isPush := by
  have h := C9_malformed_entry_partial_effects
    ⟨.ok [[("type", "STATE_RESTRICTION"), ("state", "TX"),
        ("user_id", "u1"), ("timestamp", "T")],
      [("type", "STATE_RESTRICTION"), ("user_id", "u2")]],
     .ok [("size", 50)], .ok (), .ok ⟨some true, none, none⟩, .ok (), none,
     "localhost:9091"⟩ initState
    [[("type", "STATE_RESTRICTION"), ("state", "TX"), ("user_id", "u1"),
      ("timestamp", "T")]]
    [("type", "STATE_RESTRICTION"), ("user_id", "u2")] [] rfl (by decide)
    (by decide) (Or.inl (by decide))
  exact h
